import Mathlib

/-!
Verification of the kimbal/kimai work-time balance package.

Dates are modelled as proleptic Gregorian ordinals (`Nat`, the value of
Python's `date.toordinal()`), so ordinal 1 is 0001-01-01, a Monday.
Timestamps are seconds: `ordinal * 86400 + second-of-day`.  Durations
(`datetime.timedelta`) are total seconds as `Int`.  The per-session
`hours` floats from the Kimai export are modelled as rationals.

The holiday calendar (`holidays.Germany(prov='SN', years=[year])`) is an
external data source; following the spec it is treated as an injectable
set of dates, modelled as a predicate `hol : Nat → Bool` (the provider's
set for the year in use).
-/

/-- `date.weekday()` of an ordinal: Monday = 0.  Ordinal 1 is a Monday. -/
def weekday (d : Nat) : Nat := (d + 6) % 7

/-- Date portion of a timestamp in seconds (`Timestamp.date()`). -/
def dateOf (t : Nat) : Nat := t / 86400

/-- `pd.date_range(a, b)`: the inclusive list of days from `a` to `b`,
empty when `a > b`. -/
def dateRange (a b : Nat) : List Nat :=
  if a ≤ b then (List.range (b - a + 1)).map (a + ·) else []

/-- The `Period` named tuple of `loader.py` (field `end` is called `stop`
here because `end` is a Lean keyword). -/
structure Period where
  start : Nat
  stop : Nat
deriving DecidableEq, Repr

/-- Default `Period()` bounds: `date(1900, 1, 1)` to `date(2100, 1, 1)`
as ordinals. -/
def defaultPeriod : Period := ⟨693596, 766645⟩

/-- `pd.date_range(start, end).intersection(pd.date_range(r.start, r.end))`:
the days of the first range that also lie in the second. -/
def rangeIntersect (l s : List Nat) : List Nat :=
  l.filter (fun d => decide (d ∈ s))

/-- One step of the day-classification loop of `workcal.work_days`
(and the identical loop of `main.Kimai.work_days`): the accumulator is
`(wdays, wends, hdays)`. -/
def classifyStep (hol : Nat → Bool) (acc : Int × Int × Int) (day : Nat) :
    Int × Int × Int :=
  if hol day then (acc.1, acc.2.1, acc.2.2 + 1)
  else if 5 ≤ weekday day then (acc.1, acc.2.1 + 1, acc.2.2)
  else (acc.1 + 1, acc.2.1, acc.2.2)

/-- `workcal.work_days(start, end, year, vacation, restrict)`.  The
`year` argument only selects the holiday set, which is passed in as
`hol`.  Returns `(wdays, wends, hdays)`. -/
def work_days (hol : Nat → Bool) (start stop : Nat) (vacation : Int)
    (restrict : Period) : Int × Int × Int :=
  let drange := rangeIntersect (dateRange start stop)
    (dateRange restrict.start restrict.stop)
  drange.foldl (classifyStep hol) (-vacation, 0, 0)

/-- Zero-padded two-digit rendering (`%02d`) of a minute/second field. -/
def pad2 (n : Nat) : String := if n < 10 then "0" ++ toString n else toString n

/-- `str(datetime.timedelta(days, seconds))` for a normalized timedelta
with non-negative day count: `H:MM:SS`, prefixed by the day count (with
an `s` for plurals) when it is non-zero. -/
def timedeltaStr (days seconds : Nat) : String :=
  let hh := seconds / 3600
  let mm := seconds % 3600 / 60
  let ss := seconds % 60
  let hms := toString hh ++ ":" ++ pad2 mm ++ ":" ++ pad2 ss
  if days = 0 then hms
  else toString days ++ (if days = 1 then " day, " else " days, ") ++ hms

/-- `Kimai.__format_timedelta` (main.py).  The timedelta `t` is total
seconds; after the sign is split off, `td.days = |t| / 86400` and
`td.seconds = |t| % 86400` are the fields of the normalized absolute
timedelta, `divmod(td.seconds, 8*3600)` yields the extra work days and
the leftover seconds, and `3 * td.days + adday` work days are rendered. -/
def format_timedelta (t : Int) : String :=
  let sign := if t < 0 then "-" else "+"
  let td := t.natAbs
  let adday := td % 86400 / 28800
  let seconds := td % 86400 % 28800
  let wdays := 3 * (td / 86400) + adday
  sign ++ timedeltaStr wdays seconds

/-- Modelled from the spec wording of §4.4 (duration-to-work-day
formatting), for comparison with `format_timedelta`: take the absolute
value, prefix `+` or `-` per the original sign, compute
`extra_work_days, remaining_seconds = divmod(seconds_in_last_partial_day,
8*3600)`, set `total_work_days = 3 * calendar_days + extra_work_days`,
and render `total_work_days` days plus `remaining_seconds` as H:MM:SS. -/
def format_timedelta_spec (t : Int) : String :=
  let calendar_days := t.natAbs / 86400
  let seconds_in_last_partial_day := t.natAbs % 86400
  let extra_work_days := seconds_in_last_partial_day / 28800
  let remaining_seconds := seconds_in_last_partial_day % 28800
  let total_work_days := 3 * calendar_days + extra_work_days
  (if t < 0 then "-" else "+") ++ timedeltaStr total_work_days remaining_seconds

/-- One raw row of the Kimai export (columns `Date`, `In`, `Out`,
`Time`): `date` is the ordinal obtained by parsing the `Date` column
with the year appended, `tin`/`tout` are the `In`/`Out` clock values in
seconds within the day, `hours` is the `Time` column. -/
structure RawRow where
  date : Nat
  tin : Nat
  tout : Nat
  hours : ℚ
deriving DecidableEq, Repr

/-- `pd.to_datetime(df.Date + str(year) + " " + df.In)`: the parsed
start timestamp of a row. -/
def parseStart (r : RawRow) : Nat := r.date * 86400 + r.tin

/-- `pd.to_datetime(df.Date + str(year) + " " + df.Out)`: the parsed
end timestamp of a row (same date as the start). -/
def parseEnd (r : RawRow) : Nat := r.date * 86400 + r.tout

/-- The midnight correction of `_convert_times`:
`if start[i] > end[i]: end[i] += dt.timedelta(days=1)`. -/
def correctEnd (s e : Nat) : Nat := if s > e then e + 86400 else e

/-- One row of the post-processed dataframe of `_convert_times`
(`end` is called `stop`: Lean keyword). -/
structure Session where
  start : Nat
  stop : Nat
  duration : Int
  hours : ℚ
deriving DecidableEq, Repr

/-- `TimeLog._convert_times` (loader.py; `Kimai._convert_times` in
main.py is identical): parse the start/end timestamps, extract the
period from the last row's start and the first row's end BEFORE the
midnight correction, then correct each end and build the session table.
`none` models the `IndexError` that `start.iloc[-1]` raises on an empty
table. -/
def convert_times : List RawRow → Option (Period × List Session)
  | [] => none
  | r :: rs =>
    let df := r :: rs
    let period : Period :=
      ⟨dateOf (parseStart (df.getLast (List.cons_ne_nil r rs))), dateOf (parseEnd r)⟩
    let sessions := df.map (fun x =>
      Session.mk (parseStart x) (correctEnd (parseStart x) (parseEnd x))
        ((correctEnd (parseStart x) (parseEnd x) : Int) - (parseStart x : Int))
        x.hours)
    some (period, sessions)

/-- Concrete export table with the two example sessions of the spec:
a 08:00–23:30 session (no midnight crossing, newest row first) and a
22:00–02:00 session (crossing midnight). -/
def dfEx : List RawRow := [⟨800, 28800, 84600, 15⟩, ⟨799, 79200, 7200, 4⟩]

/-- The period `convert_times` derives from `dfEx`. -/
def pEx : Period := ⟨799, 800⟩

/-- The session table `convert_times` derives from `dfEx`. -/
def ssEx : List Session :=
  [⟨69148800, 69204600, 55800, 15⟩, ⟨69112800, 69127200, 14400, 4⟩]

/-- A one-row export whose only session crosses midnight (22:00–02:00). -/
def dfCross : List RawRow := [⟨799, 79200, 7200, 4⟩]

/-- The period `convert_times` derives from `dfCross`. -/
def pCross : Period := ⟨799, 799⟩

/-- The session table `convert_times` derives from `dfCross`. -/
def ssCross : List Session := [⟨69112800, 69127200, 14400, 4⟩]

/-- One parsed row of the vacation csv: the `date` column is either a
single date or a range `D1-D2`; the free-text reason column is ignored
by the computation. -/
inductive LeaveRow where
  | single (d : Nat)
  | range (d1 d2 : Nat)
deriving DecidableEq, Repr

/-- One step of the row loop of `workcal.off_days`: a single date adds 1
when it lies in `pd.date_range(*restrict)`; a range adds the work-day
count of `work_days(*dates, year, restrict=restrict)` (vacation
defaults to 0). -/
def leaveStep (hol : Nat → Bool) (restrict : Period) (offdays : Int) :
    LeaveRow → Int
  | LeaveRow.single d =>
      if d ∈ dateRange restrict.start restrict.stop then offdays + 1 else offdays
  | LeaveRow.range d1 d2 => offdays + (work_days hol d1 d2 0 restrict).1

/-- The row loop of `workcal.off_days` over the parsed vacation file,
starting from `offdays = 0`. -/
def off_days_rows (hol : Nat → Bool) (rows : List LeaveRow)
    (restrict : Period) : Int :=
  rows.foldl (leaveStep hol restrict) 0

/-- Modelled from the spec wording of §4.3, for comparison with the row
loop: a single date contributes 1 when it falls within the period
(inclusive), else 0; a range contributes the work-day count of the day
classifier on the intersection of the range with the period, with zero
additional leave. -/
def leaveContribSpec (hol : Nat → Bool) (restrict : Period) : LeaveRow → Int
  | LeaveRow.single d => if restrict.start ≤ d ∧ d ≤ restrict.stop then 1 else 0
  | LeaveRow.range d1 d2 => (work_days hol d1 d2 0 restrict).1

/-- The `off` argument of `workcal.off_days`: an integer day count or a
file reference. -/
inductive OffSource where
  | count (n : Int)
  | file (name : String)
deriving DecidableEq, Repr

/-- A record written to the diagnostic logger. -/
inductive LogEvent where
  | warning (msg : String)
  | error (msg : String)
deriving DecidableEq, Repr

/-- The path-joining part of `loader.filepath`: `dir` is prepended
unless the file name already contains a path separator. -/
def joinFile (filename dir : String) : String :=
  if filename.data.contains '/' then filename else dir ++ "/" ++ filename

/-- `loader.filepath(filename, dir, always_return)` over an abstract
filesystem `fsExists`: the raised `FileNotFoundError` is modelled as
`Except.error ()`. -/
def filepath (fsExists : String → Bool) (filename dir : String)
    (alwaysReturn : Bool) : Except Unit String :=
  let file := joinFile filename dir
  if alwaysReturn || fsExists file then Except.ok file else Except.error ()

/-- `workcal.off_days(year, off, dir, restrict)`.  The filesystem is a
pair of capabilities: `fsExists` (does a path exist) and `contents` (the
parsed rows of the csv at a path).  The returned triple is the pair
`(offdays, file)` of the source plus the list of emitted log events;
an uncaught exception would be `Except.error`, which the function never
produces: the missing-file error of `filepath` is caught, logged as a
warning, and turned into the result `(0, None)`. -/
def off_days (fsExists : String → Bool) (contents : String → List LeaveRow)
    (hol : Nat → Bool) (off : OffSource) (dir : String) (restrict : Period) :
    Except Unit (Int × Option String × List LogEvent) :=
  match off with
  | OffSource.count n => Except.ok (n, none, [])
  | OffSource.file name =>
    match filepath fsExists name dir false with
    | Except.error _ =>
        Except.ok (0, none,
          [LogEvent.warning
            ("File " ++ joinFile name dir ++ " not found. Off-days set to 0.")])
    | Except.ok f =>
        Except.ok (off_days_rows hol (contents f) restrict, some f, [])

/-- The balance fields computed by `Kimai.__compile_hours`:
`workedtimes` and `timedifference` are `timedelta`s (seconds),
`workedhours` and `balance` are floats (rationals here). -/
structure BalanceAccount where
  workedtimes : Int
  workedhours : ℚ
  balance : ℚ
  timedifference : Int
deriving DecidableEq, Repr

/-- `Kimai.__compile_hours(data)`: `workedtimes = sum(data.duration)`,
`workedhours = sum(data.hours)` (Python `sum` is a left fold from 0),
`balance = workedhours - workinghours` and
`timedifference = workedtimes - workingtimes`, where `workinghours` and
`workingtimes` are the demand figures set by `__working_hours`. -/
def compile_hours (data : List Session) (workinghours : ℚ)
    (workingtimes : Int) : BalanceAccount :=
  let workedtimes := data.foldl (fun acc s => acc + s.duration) 0
  let workedhours := data.foldl (fun acc s => acc + s.hours) 0
  BalanceAccount.mk workedtimes workedhours (workedhours - workinghours)
    (workedtimes - workingtimes)

lemma mem_dateRange {a b d : Nat} : d ∈ dateRange a b ↔ a ≤ d ∧ d ≤ b := by
  unfold dateRange
  by_cases h : a ≤ b
  · simp only [if_pos h, List.mem_map, List.mem_range]
    constructor
    · rintro ⟨k, hk, rfl⟩; omega
    · rintro ⟨h1, h2⟩; exact ⟨d - a, by omega, by omega⟩
  · simp only [if_neg h, List.not_mem_nil, false_iff]
    omega

lemma length_dateRange {a b : Nat} (h : a ≤ b) :
    (dateRange a b).length = b - a + 1 := by
  unfold dateRange
  simp [h]

/-- Peeling the classification loop: each component of the result is the
initial accumulator plus the number of days of the corresponding class. -/
lemma classify_foldl (hol : Nat → Bool) (l : List Nat) (w we hd : Int) :
    l.foldl (classifyStep hol) (w, we, hd) =
      (w + ((l.filter fun d => !hol d && decide (weekday d < 5)).length : Int),
       we + ((l.filter fun d => !hol d && decide (5 ≤ weekday d)).length : Int),
       hd + ((l.filter fun d => hol d).length : Int)) := by
  induction l generalizing w we hd with
  | nil => simp
  | cons a l ih =>
    rw [List.foldl_cons]
    by_cases h1 : hol a
    · have hstep : classifyStep hol (w, we, hd) a = (w, we, hd + 1) := by
        simp [classifyStep, h1]
      rw [hstep, ih]
      simp [List.filter_cons, h1, Prod.ext_iff]
      omega
    · by_cases h2 : 5 ≤ weekday a
      · have hstep : classifyStep hol (w, we, hd) a = (w, we + 1, hd) := by
          simp [classifyStep, h1, h2]
        rw [hstep, ih]
        have h2' : ¬ weekday a < 5 := by omega
        simp [List.filter_cons, h1, h2, h2', Prod.ext_iff]
        omega
      · have h2' : weekday a < 5 := by omega
        have hstep : classifyStep hol (w, we, hd) a = (w + 1, we, hd) := by
          simp [classifyStep, h1, h2]
        rw [hstep, ih]
        simp [List.filter_cons, h1, h2, h2', Prod.ext_iff]
        omega

/-- The three day classes are mutually exclusive and exhaustive. -/
lemma three_way_partition (hol : Nat → Bool) (l : List Nat) :
    (l.filter fun d => !hol d && decide (weekday d < 5)).length +
    (l.filter fun d => !hol d && decide (5 ≤ weekday d)).length +
    (l.filter fun d => hol d).length = l.length := by
  induction l with
  | nil => simp
  | cons a l ih =>
    by_cases h1 : hol a
    · simp [List.filter_cons, h1]
      omega
    · by_cases h2 : 5 ≤ weekday a
      · have h2' : ¬ weekday a < 5 := by omega
        simp [List.filter_cons, h1, h2, h2']
        omega
      · have h2' : weekday a < 5 := by omega
        simp [List.filter_cons, h1, h2, h2']
        omega

lemma rangeIntersect_of_subset {start stop : Nat} (r : Period)
    (h2 : r.start ≤ start) (h3 : stop ≤ r.stop) :
    rangeIntersect (dateRange start stop)
      (dateRange r.start r.stop) = dateRange start stop := by
  unfold rangeIntersect
  rw [List.filter_eq_self]
  intro d hd
  rw [mem_dateRange] at hd
  simpa [mem_dateRange] using ⟨by omega, by omega⟩

/-- C1: with zero leave, the work-day, weekend-day and holiday counts of
`work_days` partition the inclusive calendar range whenever the restrict
period contains it (in particular for the default restrict period and
for the unrestricted variant of `main.Kimai.work_days`). -/
theorem claim_C1_partition (hol : Nat → Bool) (start stop : Nat) (r : Period)
    (h1 : start ≤ stop) (h2 : r.start ≤ start) (h3 : stop ≤ r.stop) :
    (work_days hol start stop 0 r).1 + (work_days hol start stop 0 r).2.1 +
      (work_days hol start stop 0 r).2.2 = ((stop - start + 1 : Nat) : Int) := by
  unfold work_days
  rw [rangeIntersect_of_subset r h2 h3, classify_foldl]
  have hpart := three_way_partition hol (dateRange start stop)
  have hlen := length_dateRange h1
  simp only [neg_zero, zero_add]
  omega

/-- Witness for C1 at a concrete week (ordinals 738885–738891, a
Monday-to-Sunday week) with one holiday inside. -/
theorem claim_C1_partition_witness :
    (work_days (fun d => d == 738887) 738885 738891 0 defaultPeriod).1 +
      (work_days (fun d => d == 738887) 738885 738891 0 defaultPeriod).2.1 +
      (work_days (fun d => d == 738887) 738885 738891 0 defaultPeriod).2.2 =
      ((738891 - 738885 + 1 : Nat) : Int) :=
  claim_C1_partition (fun d => d == 738887) 738885 738891 defaultPeriod
    (by decide) (by decide) (by decide)

/-- C2: the work-day formatter agrees, at every signed duration, with
the spec's description (absolute value, sign prefix, divmod of the last
partial day's seconds by 8 hours, 3 work days per calendar day). -/
theorem claim_C2_format (t : Int) : format_timedelta t = format_timedelta_spec t := rfl

/-- C3 counterexample: a balance of +17 hours is not reported as 1
work-day plus 1:00:00. -/
theorem claim_C3_counterexample :
    format_timedelta (17 * 3600) ≠ "+1 day, 1:00:00" := by decide

/-- C3 (amended): a balance of +17 hours is reported as 2 work-days plus
1:00:00 (17 = 2 * 8 + 1). -/
theorem claim_C3_format17 : format_timedelta (17 * 3600) = "+2 days, 1:00:00" := by decide

/-- C4: in the converted session table, a row's end timestamp is pushed
forward exactly one calendar day when the parsed start is strictly later
than the parsed end, and is left unchanged otherwise. -/
theorem claim_C4_midnight (df : List RawRow) (p : Period) (ss : List Session)
    (h : convert_times df = some (p, ss)) (i : Nat) (hi : i < df.length)
    (hj : i < ss.length) :
    (ss.get ⟨i, hj⟩).stop =
      if parseStart (df.get ⟨i, hi⟩) > parseEnd (df.get ⟨i, hi⟩)
      then parseEnd (df.get ⟨i, hi⟩) + 86400
      else parseEnd (df.get ⟨i, hi⟩) := by
  match df with
  | [] => simp [convert_times] at h
  | r :: rs =>
    simp only [convert_times, Option.some.injEq, Prod.mk.injEq] at h
    obtain ⟨-, hss⟩ := h
    subst hss
    simp only [List.get_eq_getElem, List.getElem_map]
    rfl

/-- C4 witness: on the concrete table `dfEx`, the 08:00–23:30 session is
unchanged and the 22:00–02:00 session's end advances by one day. -/
theorem claim_C4_midnight_witness :
    ((ssEx.get ⟨0, by decide⟩).stop =
      if parseStart (dfEx.get ⟨0, by decide⟩) > parseEnd (dfEx.get ⟨0, by decide⟩)
      then parseEnd (dfEx.get ⟨0, by decide⟩) + 86400
      else parseEnd (dfEx.get ⟨0, by decide⟩)) ∧
    ((ssEx.get ⟨1, by decide⟩).stop =
      if parseStart (dfEx.get ⟨1, by decide⟩) > parseEnd (dfEx.get ⟨1, by decide⟩)
      then parseEnd (dfEx.get ⟨1, by decide⟩) + 86400
      else parseEnd (dfEx.get ⟨1, by decide⟩)) :=
  ⟨claim_C4_midnight dfEx pEx ssEx rfl 0 (by decide) (by decide),
   claim_C4_midnight dfEx pEx ssEx rfl 1 (by decide) (by decide)⟩

/-- C5: the derived period starts at the date of the LAST row's start
timestamp and ends at the date of the FIRST row's end timestamp. -/
theorem claim_C5_period (df : List RawRow) (p : Period) (ss : List Session)
    (h : convert_times df = some (p, ss)) (hne : df ≠ []) :
    p.start = dateOf (parseStart (df.getLast hne)) ∧
    p.stop = dateOf (parseEnd (df.head hne)) := by
  match df with
  | r :: rs =>
    simp only [convert_times, Option.some.injEq, Prod.mk.injEq] at h
    obtain ⟨hp, -⟩ := h
    subst hp
    exact ⟨rfl, rfl⟩

/-- C5 witness: on `dfEx`, the period runs from the last row's start
date (ordinal 799) to the first row's end date (ordinal 800). -/
theorem claim_C5_period_witness :
    pEx.start = dateOf (parseStart (dfEx.getLast (by decide))) ∧
    pEx.stop = dateOf (parseEnd (dfEx.head (by decide))) :=
  claim_C5_period dfEx pEx ssEx rfl (by decide)

/-- C10: the period is extracted before the midnight correction: when
the first row crosses midnight, `Period.end` is the raw date of that
row's end timestamp, one day earlier than the date of the corrected end
timestamp of the corresponding session. -/
theorem claim_C10_raw_period (r : RawRow) (rs : List RawRow)
    (p : Period) (ss : List Session)
    (h : convert_times (r :: rs) = some (p, ss))
    (hcross : parseStart r > parseEnd r) :
    p.stop = dateOf (parseEnd r) ∧
    ∃ s ts, ss = s :: ts ∧ dateOf s.stop = p.stop + 1 := by
  simp only [convert_times, Option.some.injEq, Prod.mk.injEq, List.map_cons] at h
  obtain ⟨hp, hss⟩ := h
  subst hp
  refine ⟨rfl, _, _, hss.symm, ?_⟩
  simp only [correctEnd, if_pos hcross, dateOf]
  exact Nat.add_div_right (parseEnd r) (by norm_num)

/-- C10 witness: on the one-row crossing table `dfCross`, the period end
is the raw end date 799 while the corrected session ends on day 800. -/
theorem claim_C10_raw_period_witness :
    pCross.stop = dateOf (parseEnd ⟨799, 79200, 7200, 4⟩) ∧
    ∃ s ts, ssCross = s :: ts ∧ dateOf s.stop = pCross.stop + 1 :=
  claim_C10_raw_period ⟨799, 79200, 7200, 4⟩ [] pCross ssCross rfl (by decide)

lemma leaveStep_eq_add_contrib (hol : Nat → Bool) (restrict : Period)
    (a : Int) (row : LeaveRow) :
    leaveStep hol restrict a row = a + leaveContribSpec hol restrict row := by
  cases row with
  | single d =>
    by_cases hmem : d ∈ dateRange restrict.start restrict.stop
    · have hd := mem_dateRange.mp hmem
      simp [leaveStep, leaveContribSpec, hmem, hd]
    · have hd : ¬ (restrict.start ≤ d ∧ d ≤ restrict.stop) := fun hc =>
        hmem (mem_dateRange.mpr hc)
      simp [leaveStep, leaveContribSpec, hmem, hd]
  | range d1 d2 => simp [leaveStep, leaveContribSpec]

lemma off_days_rows_foldl (hol : Nat → Bool) (restrict : Period)
    (rows : List LeaveRow) (a : Int) :
    rows.foldl (leaveStep hol restrict) a =
      a + (rows.map (leaveContribSpec hol restrict)).sum := by
  induction rows generalizing a with
  | nil => simp
  | cons row rows ih =>
    rw [List.foldl_cons, leaveStep_eq_add_contrib, ih, List.map_cons,
      List.sum_cons]
    ring

/-- C6: the resolved leave count of a parsed leave file is the sum over
its rows of the per-row contribution described by the spec: 1 for an
in-period single date, 0 for an out-of-period single date, and the
day classifier's work-day count (zero extra leave, clipped to the
period) for a date range. -/
theorem claim_C6_leave_rows (hol : Nat → Bool) (rows : List LeaveRow)
    (restrict : Period) :
    off_days_rows hol rows restrict =
      (rows.map (leaveContribSpec hol restrict)).sum := by
  unfold off_days_rows
  rw [off_days_rows_foldl]
  ring

/-- C7: an integer leave source is returned verbatim with no origin file
(and nothing is read or logged), for every filesystem, period and
directory. -/
theorem claim_C7_int_source (fsExists : String → Bool)
    (contents : String → List LeaveRow) (hol : Nat → Bool) (n : Int)
    (dir : String) (restrict : Period) :
    off_days fsExists contents hol (OffSource.count n) dir restrict =
      Except.ok (n, none, []) := rfl

/-- C8: when the leave file does not exist, `off_days` emits a warning,
returns a leave count of 0 with no origin, and raises no exception (the
result is `Except.ok`). -/
theorem claim_C8_missing_file (fsExists : String → Bool)
    (contents : String → List LeaveRow) (hol : Nat → Bool)
    (name dir : String) (restrict : Period)
    (h : filepath fsExists name dir false = Except.error ()) :
    off_days fsExists contents hol (OffSource.file name) dir restrict =
      Except.ok (0, none,
        [LogEvent.warning
          ("File " ++ joinFile name dir ++ " not found. Off-days set to 0.")]) := by
  simp only [off_days, h]

/-- C8 witness: on an empty filesystem, resolving `vacation.csv` in
directory `data` yields a warning, 0 leave days, no origin, and no
exception. -/
theorem claim_C8_missing_file_witness :
    off_days (fun _ => false) (fun _ => []) (fun _ => false)
        (OffSource.file "vacation.csv") "data" defaultPeriod =
      Except.ok (0, none,
        [LogEvent.warning
          ("File " ++ joinFile "vacation.csv" "data" ++
            " not found. Off-days set to 0.")]) :=
  claim_C8_missing_file (fun _ => false) (fun _ => []) (fun _ => false)
    "vacation.csv" "data" defaultPeriod rfl

lemma foldl_add_hours (data : List Session) (a : ℚ) :
    data.foldl (fun acc s => acc + s.hours) a =
      a + (data.map Session.hours).sum := by
  induction data generalizing a with
  | nil => simp
  | cons s l ih =>
    rw [List.foldl_cons, ih, List.map_cons, List.sum_cons]
    ring

/-- C9: `workedhours` is the float sum of the per-session hours column
and `balance` is `workedhours` minus the demanded hours; on an empty
session table the worked hours are 0 and the balance is the negated
demand. -/
theorem claim_C9_balance (data : List Session) (workinghours : ℚ)
    (workingtimes : Int) :
    ((compile_hours data workinghours workingtimes).workedhours =
        (data.map Session.hours).sum ∧
      (compile_hours data workinghours workingtimes).balance =
        (data.map Session.hours).sum - workinghours) ∧
    (compile_hours [] workinghours workingtimes).workedhours = 0 ∧
    (compile_hours [] workinghours workingtimes).balance = -workinghours := by
  refine ⟨⟨?_, ?_⟩, ?_, ?_⟩ <;> simp [compile_hours, foldl_add_hours]
